import Mathlib

/-!
Verification of the response-decoding and resilient-request layer of the
money-manager-mcp server, shallowly embedded from the TypeScript sources
(`src/client/http-client.ts`, `src/errors/index.ts`, `src/tools/handlers.ts`,
`src/config/index.ts`).

Conventions of the embedding:
* JavaScript strings are Lean `String`s; scanning happens on `String.data`
  (`List Char`).
* Machine numbers that the code only compares and scales (retry counters,
  delays, HTTP status codes) are `Nat`.
* Fallible code returns `Option`/`Except`; a thrown JS value is the
  `Thrown` type below.
* The open-ended `details` map of classified errors is modelled as an
  association list of stringified entries; `undefined`-valued entries are
  modelled as absent.
-/

namespace MoneyManagerMcp

/-- `ErrorCategory` enum from `src/errors/index.ts`. -/
inductive ErrorCategory
  | NETWORK
  | API
  | VALIDATION
  | SESSION
  | FILE
  | INTERNAL
deriving DecidableEq, Repr

/-- The `McpError` base class (`src/errors/index.ts`): code, category, message,
retryable flag, plus the `statusCode` field carried by `APIError` and the
structured detail map. -/
structure McpError where
  code : String
  category : ErrorCategory
  message : String
  retryable : Bool
  statusCode : Option Nat := none
  details : List (String × String) := []
deriving DecidableEq, Repr

/-- Detail-map entry for an optional value: a JS object literal with an
`undefined` value is modelled as the absent entry. -/
def optEntry (k : String) (v : Option String) : List (String × String) :=
  match v with
  | some s => [(k, s)]
  | none => []

/-- `new NetworkError(message, details)`: category NETWORK, retryable. -/
def NetworkError.make (message : String) (details : List (String × String)) : McpError :=
  { code := "NETWORK_ERROR", category := ErrorCategory.NETWORK, message := message,
    retryable := true, statusCode := none, details := details }

/-- `NetworkError.timeout(url, timeoutMs, hint?)`. -/
def NetworkError.timeout (url : String) (timeoutMs : Nat) (hint : Option String) : McpError :=
  NetworkError.make ("Request to " ++ url ++ " timed out after " ++ toString timeoutMs ++ "ms")
    ([("url", url), ("timeoutMs", toString timeoutMs), ("errorType", "TIMEOUT")] ++
      optEntry "hint" hint)

/-- The hint text of `NetworkError.timeoutForTransactionList`. -/
def transactionListTimeoutHint : String :=
  "Note: The Money Manager server may hang when querying date ranges with no transactions. " ++
    "This is a known server-side limitation. Try a date range that has recorded transactions."

/-- `NetworkError.timeoutForTransactionList(url, timeoutMs)`. -/
def NetworkError.timeoutForTransactionList (url : String) (timeoutMs : Nat) : McpError :=
  NetworkError.timeout url timeoutMs (some transactionListTimeoutHint)

/-- `NetworkError.connectionRefused(url)`. -/
def NetworkError.connectionRefused (url : String) : McpError :=
  NetworkError.make ("Connection refused to " ++ url)
    [("url", url), ("errorType", "CONNECTION_REFUSED")]

/-- `NetworkError.unreachable(url, originalError?)`. -/
def NetworkError.unreachable (url : String) (originalError : Option String) : McpError :=
  NetworkError.make ("Cannot connect to Money Manager server at " ++ url)
    ([("url", url)] ++ optEntry "originalError" originalError ++ [("errorType", "UNREACHABLE")])

/-- `new APIError(message, statusCode?)`: category API, retryable exactly when a
status code is present and is at least 500.  The `statusCode` field models both
the class field and the `statusCode` entry the constructor adds to `details`. -/
def APIError.make (message : String) (statusCode : Option Nat) : McpError :=
  { code := "API_ERROR", category := ErrorCategory.API, message := message,
    retryable := match statusCode with
      | some s => decide (500 ≤ s)
      | none => false,
    statusCode := statusCode, details := [] }

/-- The `defaultMessages` table of `APIError.fromStatusCode`. -/
def apiDefaultMessage (statusCode : Nat) : Option String :=
  if statusCode = 400 then some "Bad Request"
  else if statusCode = 401 then some "Unauthorized"
  else if statusCode = 403 then some "Forbidden"
  else if statusCode = 404 then some "Not Found"
  else if statusCode = 500 then some "Internal Server Error"
  else if statusCode = 502 then some "Bad Gateway"
  else if statusCode = 503 then some "Service Unavailable"
  else none

/-- `APIError.fromStatusCode(statusCode, message?)`. -/
def APIError.fromStatusCode (statusCode : Nat) (message : Option String) : McpError :=
  APIError.make (message.getD ((apiDefaultMessage statusCode).getD "Unknown Error"))
    (some statusCode)

/-- `new SessionError(message, details)`: category SESSION, retryable. -/
def SessionError.make (message : String) (details : List (String × String)) : McpError :=
  { code := "SESSION_ERROR", category := ErrorCategory.SESSION, message := message,
    retryable := true, statusCode := none, details := details }

/-- `SessionError.unauthorized()`. -/
def SessionError.unauthorized : McpError :=
  SessionError.make "Unauthorized access. Please check your credentials." []

/-- `new FileError(message, filePath?, details?)`: category FILE, never
retryable; the constructor appends the file path to the detail map. -/
def FileError.make (message : String) (filePath : Option String)
    (details : List (String × String)) : McpError :=
  { code := "FILE_ERROR", category := ErrorCategory.FILE, message := message,
    retryable := false, statusCode := none, details := details ++ optEntry "filePath" filePath }

/-- `FileError.notFound(filePath)`. -/
def FileError.notFound (filePath : String) : McpError :=
  FileError.make ("File not found: \x27" ++ filePath ++ "\x27") (some filePath)
    [("operation", "access")]

/-- `new InternalError(message, details?)`: category INTERNAL, never retryable. -/
def InternalError.make (message : String) (details : List (String × String)) : McpError :=
  { code := "INTERNAL_ERROR", category := ErrorCategory.INTERNAL, message := message,
    retryable := false, statusCode := none, details := details }

/-- `InternalError.unexpected(originalError?)`. -/
def InternalError.unexpected (originalError : Option String) : McpError :=
  InternalError.make "An unexpected error occurred" (optEntry "originalError" originalError)

/-- A JavaScript thrown value as seen by `catch` blocks: an already classified
`McpError`, a plain `Error` instance (with its optional `code` property and its
message), or a non-`Error` value stringified. -/
inductive Thrown
  | mcp (e : McpError)
  | jsError (code : Option String) (message : String)
  | nonError (text : String)
deriving DecidableEq, Repr

/-- `wrapError(error)` from `src/errors/index.ts`: idempotent on classified
errors, maps well-known network error codes of plain `Error`s, and falls back
to `InternalError`. -/
def wrapError : Thrown → McpError
  | .mcp e => e
  | .jsError code message =>
      if code = some "ECONNREFUSED" then NetworkError.connectionRefused "unknown"
      else if code = some "ETIMEDOUT" ∨ code = some "ECONNABORTED" then
        NetworkError.timeout "unknown" 0 none
      else if code = some "ENOTFOUND" then NetworkError.unreachable "unknown" (some message)
      else InternalError.unexpected (some message)
  | .nonError text => InternalError.make text []

/-- `error.message` when the thrown value is an `Error` instance
(`McpError extends Error`), `none` for non-`Error` values. -/
def thrownMessage : Thrown → Option String
  | .mcp e => some e.message
  | .jsError _ message => some message
  | .nonError _ => none

/-- The `config.server` record (`src/config/index.ts`). -/
structure ServerConfig where
  baseUrl : String
  timeout : Nat
  retryCount : Nat
  retryDelay : Nat
deriving DecidableEq, Repr

/-- The bounds `ConfigSchema` (zod) imposes on `config.server`:
`timeout` in [1000, 120000], `retryCount` in [0, 10], `retryDelay` in
[100, 10000].  Every configuration accepted by `loadConfig` satisfies this. -/
def ValidServerConfig (cfg : ServerConfig) : Prop :=
  1000 ≤ cfg.timeout ∧ cfg.timeout ≤ 120000 ∧
    cfg.retryCount ≤ 10 ∧ 100 ≤ cfg.retryDelay ∧ cfg.retryDelay ≤ 10000

instance (cfg : ServerConfig) : Decidable (ValidServerConfig cfg) := by
  unfold ValidServerConfig; infer_instance

/-- Boolean prefix test on character lists (model of matching a pattern at the
start of a string). -/
def isPrefixOfChars : List Char → List Char → Bool
  | [], _ => true
  | _ :: _, [] => false
  | a :: as, b :: bs => a = b && isPrefixOfChars as bs

/-- `text.includes(pat)` scanning: the pattern occurs at some position. -/
def hasSubstr (text pat : List Char) : Bool :=
  isPrefixOfChars pat text ||
    match text with
    | [] => false
    | _ :: t => hasSubstr t pat

/-- JS `String.prototype.includes`. -/
def jsIncludes (s pat : String) : Bool :=
  hasSubstr s.data pat.data

/-- A failed axios exchange as classified by the response interceptor: either
no HTTP response was obtained (transport error, with the error `code`, message
and request url), or an HTTP response with an error status arrived. -/
inductive AxiosFailure
  | noResponse (code : Option String) (message : String) (url : Option String)
  | httpStatus (status : Nat) (message : String)
deriving DecidableEq, Repr

/-- `HttpClient.handleResponseError` (src/client/http-client.ts lines 282-330),
restricted to axios errors: maps transport failures to `NetworkError`s (with
the transaction-list timeout hint for `/getDataByPeriod` urls), 401/403 to
`SessionError.unauthorized`, and any other HTTP error status through
`APIError.fromStatusCode`. -/
def handleResponseError (cfg : ServerConfig) : AxiosFailure → McpError
  | .noResponse code message url =>
      if code = some "ECONNREFUSED" then NetworkError.connectionRefused cfg.baseUrl
      else if code = some "ETIMEDOUT" ∨ code = some "ECONNABORTED" then
        let u := url.getD "unknown"
        if jsIncludes u "/getDataByPeriod" then
          NetworkError.timeoutForTransactionList u cfg.timeout
        else NetworkError.timeout u cfg.timeout none
      else if code = some "ENOTFOUND" then NetworkError.unreachable cfg.baseUrl (some message)
      else NetworkError.make message (optEntry "code" code)
  | .httpStatus status message =>
      if status = 401 ∨ status = 403 then SessionError.unauthorized
      else APIError.fromStatusCode status (some message)

/-- Observable outcome of one call to `executeWithRetry`: the final result,
the number of times the request function was invoked, and the backoff sleeps
performed (in order, in milliseconds). -/
structure ExecResult (T : Type) where
  result : Except McpError T
  attempts : Nat
  delays : List Nat
deriving Repr

/-- The retry loop body of `HttpClient.executeWithRetry` (lines 253-274).
`remaining` is `maxRetries - attempt`, so the loop guard `attempt >= maxRetries`
of the source is the `remaining = 0` case; on a failure the caught value is
passed through `wrapError`, non-retryable errors and exhausted budgets are
propagated at once, and otherwise the loop sleeps `baseDelay * 2 ^ attempt`
milliseconds and retries. -/
def executeWithRetryGo {T : Type} (baseDelay : Nat) (req : Nat → Except Thrown T) :
    Nat → Nat → ExecResult T
  | attempt, remaining =>
    match req attempt, remaining with
    | .ok v, _ => { result := .ok v, attempts := 1, delays := [] }
    | .error thrown, 0 => { result := .error (wrapError thrown), attempts := 1, delays := [] }
    | .error thrown, r + 1 =>
        if (wrapError thrown).retryable = false then
          { result := .error (wrapError thrown), attempts := 1, delays := [] }
        else
          let rest := executeWithRetryGo baseDelay req (attempt + 1) r
          { result := rest.result, attempts := rest.attempts + 1,
            delays := baseDelay * 2 ^ attempt :: rest.delays }

/-- `HttpClient.executeWithRetry(requestFn)`, with `maxRetries` and the base
delay read from the configuration; the request function receives the zero-based
attempt index. -/
def executeWithRetry {T : Type} (cfg : ServerConfig) (req : Nat → Except Thrown T) :
    ExecResult T :=
  executeWithRetryGo cfg.retryDelay req 0 cfg.retryCount

/-- A request function whose rejections pass through the axios response
interceptor (`handleResponseError`) before reaching `executeWithRetry`, as
wired up in the `HttpClient` constructor. -/
def viaInterceptor {T : Type} (cfg : ServerConfig) (raw : Nat → Except AxiosFailure T) :
    Nat → Except Thrown T :=
  fun attempt => (raw attempt).mapError (fun f => Thrown.mcp (handleResponseError cfg f))

/-- A JSON value as produced by `JSON.parse`.  Number tokens are kept as their
source lexeme: the decoder claims only ever compare values parsed from the same
text, so the syntactic representation is lossless there and avoids modelling
IEEE-754 rounding. -/
inductive Json
  | null
  | bool (b : Bool)
  | num (lexeme : String)
  | str (s : String)
  | arr (elems : List Json)
  | obj (fields : List (String × Json))

/-- The four JSON insignificant-whitespace characters (also the common JS
whitespace). -/
def jsonWs (c : Char) : Bool :=
  c = ' ' || c = '\t' || c = '\n' || c = '\r'

/-- Whitespace as trimmed by JS `String.prototype.trim` and matched by the
regex class `\s`: the JSON four plus vertical tab, form feed, no-break space
and the BOM (the further exotic Unicode space characters are not modelled). -/
def jsTrimWs (c : Char) : Bool :=
  c = ' ' || c = '\t' || c = '\n' || c = '\r' || c = '\x0B' || c = '\x0C' ||
    c = Char.ofNat 0xA0 || c = Char.ofNat 0xFEFF

/-- Skip JSON whitespace. -/
def skipWs : List Char → List Char
  | [] => []
  | c :: rest => if jsonWs c then skipWs rest else c :: rest

/-- Numeric value of a hexadecimal digit. -/
def hexVal (c : Char) : Option Nat :=
  if c.isDigit then some (c.toNat - 48)
  else if 'a' ≤ c ∧ c ≤ 'f' then some (c.toNat - 87)
  else if 'A' ≤ c ∧ c ≤ 'F' then some (c.toNat - 55)
  else none

/-- Body of a JSON string literal, positioned just after the opening quote:
returns the decoded characters and the input after the closing quote.  Raw
control characters are rejected, the JSON escapes are decoded, and a `\u`
escape becomes the character with that code (surrogate-pair recombination of
UTF-16 is not modelled). -/
def parseStringChars : List Char → Option (List Char × List Char)
  | [] => none
  | '\x22' :: rest => some ([], rest)
  | '\\' :: rest =>
      match rest with
      | [] => none
      | e :: rest' =>
          if e = '\x22' ∨ e = '\\' ∨ e = '/' then
            match parseStringChars rest' with
            | some (cs, r) => some (e :: cs, r)
            | none => none
          else if e = 'b' then
            match parseStringChars rest' with
            | some (cs, r) => some ('\x08' :: cs, r)
            | none => none
          else if e = 'f' then
            match parseStringChars rest' with
            | some (cs, r) => some ('\x0C' :: cs, r)
            | none => none
          else if e = 'n' then
            match parseStringChars rest' with
            | some (cs, r) => some ('\n' :: cs, r)
            | none => none
          else if e = 'r' then
            match parseStringChars rest' with
            | some (cs, r) => some ('\r' :: cs, r)
            | none => none
          else if e = 't' then
            match parseStringChars rest' with
            | some (cs, r) => some ('\t' :: cs, r)
            | none => none
          else if e = 'u' then
            match rest' with
            | h1 :: h2 :: h3 :: h4 :: rest'' =>
                match hexVal h1, hexVal h2, hexVal h3, hexVal h4 with
                | some a, some b, some c, some d =>
                    match parseStringChars rest'' with
                    | some (cs, r) =>
                        some (Char.ofNat (a * 4096 + b * 256 + c * 16 + d) :: cs, r)
                    | none => none
                | _, _, _, _ => none
            | _ => none
          else none
  | c :: rest =>
      if c.toNat < 32 then none
      else
        match parseStringChars rest with
        | some (cs, r) => some (c :: cs, r)
        | none => none

/-- Optional exponent part of a JSON number; returns the extended lexeme and
the rest (unchanged when no well-formed exponent follows, in which case any
stray `e` is left for the caller, who will fail on it as `JSON.parse` does). -/
def parseNumExp (acc : List Char) (l : List Char) : List Char × List Char :=
  match l with
  | e :: rest =>
      if e = 'e' ∨ e = 'E' then
        match rest with
        | s :: rest' =>
            if s = '+' ∨ s = '-' then
              match rest' with
              | d :: _ =>
                  if d.isDigit then
                    let p := List.span Char.isDigit rest'
                    (acc ++ e :: s :: p.1, p.2)
                  else (acc, l)
              | [] => (acc, l)
            else if s.isDigit then
              let p := List.span Char.isDigit rest
              (acc ++ e :: p.1, p.2)
            else (acc, l)
        | [] => (acc, l)
      else (acc, l)
  | [] => (acc, l)

/-- Optional fraction then exponent, after the integer part of a JSON number. -/
def parseNumAfterInt (acc : List Char) (l : List Char) : List Char × List Char :=
  match l with
  | '.' :: rest =>
      match rest with
      | d :: _ =>
          if d.isDigit then
            let p := List.span Char.isDigit rest
            parseNumExp (acc ++ '.' :: p.1) p.2
          else parseNumExp acc l
      | [] => parseNumExp acc l
  | _ => parseNumExp acc l

/-- Integer part of a JSON number after the optional sign: `0` or a
nonzero-led digit run, then the optional fraction and exponent. -/
def parseNumberBody (sign : List Char) (c : Char) (r : List Char) :
    Option (List Char × List Char) :=
  if c = '0' then some (parseNumAfterInt (sign ++ ['0']) r)
  else if c.isDigit then
    let p := List.span Char.isDigit r
    some (parseNumAfterInt (sign ++ c :: p.1) p.2)
  else none

/-- A JSON number token: optional minus, `0` or a nonzero-led digit run, then
optional fraction and exponent.  Returns the lexeme and the rest. -/
def parseNumberLex (l : List Char) : Option (List Char × List Char) :=
  match l with
  | [] => none
  | c0 :: r0 =>
      if c0 = '-' then
        match r0 with
        | [] => none
        | c :: r => parseNumberBody ['-'] c r
      else parseNumberBody [] c0 r0

mutual

/-- Fueled recursive-descent parser for one JSON value (the model of the value
grammar accepted by `JSON.parse`); each constructor dispatches on the first
non-whitespace character. -/
def parseValue : Nat → List Char → Option (Json × List Char)
  | 0, _ => none
  | fuel + 1, l =>
    match skipWs l with
    | [] => none
    | c :: rest =>
        if c = '\x22' then
          match parseStringChars rest with
          | some (cs, rest') => some (.str (String.mk cs), rest')
          | none => none
        else if c = '[' then
          match skipWs rest with
          | ']' :: rest' => some (.arr [], rest')
          | _ =>
              match parseElements fuel rest with
              | some (vs, rest') => some (.arr vs, rest')
              | none => none
        else if c = '\x7b' then
          match skipWs rest with
          | '\x7d' :: rest' => some (.obj [], rest')
          | _ =>
              match parseMembers fuel rest with
              | some (fs, rest') => some (.obj fs, rest')
              | none => none
        else if c = 't' then
          match rest with
          | 'r' :: 'u' :: 'e' :: rest' => some (.bool true, rest')
          | _ => none
        else if c = 'f' then
          match rest with
          | 'a' :: 'l' :: 's' :: 'e' :: rest' => some (.bool false, rest')
          | _ => none
        else if c = 'n' then
          match rest with
          | 'u' :: 'l' :: 'l' :: rest' => some (.null, rest')
          | _ => none
        else
          match parseNumberLex (c :: rest) with
          | some (lex, rest') => some (.num (String.mk lex), rest')
          | none => none

/-- One or more comma-separated array elements followed by `]`. -/
def parseElements : Nat → List Char → Option (List Json × List Char)
  | 0, _ => none
  | fuel + 1, l =>
    match parseValue fuel l with
    | none => none
    | some (v, rest) =>
        match skipWs rest with
        | ',' :: rest' =>
            match parseElements fuel rest' with
            | some (vs, rest'') => some (v :: vs, rest'')
            | none => none
        | ']' :: rest' => some ([v], rest')
        | _ => none

/-- One or more comma-separated `"key": value` members followed by `}`. -/
def parseMembers : Nat → List Char → Option (List (String × Json) × List Char)
  | 0, _ => none
  | fuel + 1, l =>
    match skipWs l with
    | '\x22' :: rest =>
        match parseStringChars rest with
        | none => none
        | some (key, rest1) =>
            match skipWs rest1 with
            | ':' :: rest2 =>
                match parseValue fuel rest2 with
                | none => none
                | some (v, rest3) =>
                    match skipWs rest3 with
                    | ',' :: rest4 =>
                        match parseMembers fuel rest4 with
                        | some (fs, rest5) => some ((String.mk key, v) :: fs, rest5)
                        | none => none
                    | '\x7d' :: rest4 => some ([(String.mk key, v)], rest4)
                    | _ => none
            | _ => none
    | _ => none

end

/-- Fuel that always suffices for `parseValue` on an input of this length
(each unit of nesting or iteration consumes at least one character and at most
two units of fuel). -/
def jsonFuel (l : List Char) : Nat :=
  2 * l.length + 8

/-- `JSON.parse(text)` as a total function into `Option`: one value with
nothing but whitespace allowed after it. -/
def jsonParse (s : String) : Option Json :=
  match parseValue (jsonFuel s.data) s.data with
  | some (v, rest) => if skipWs rest = [] then some v else none
  | none => none

/-- First character class of the key regexes: `[a-zA-Z_]`. -/
def isIdentStart (c : Char) : Bool :=
  ('a' ≤ c && c ≤ 'z') || ('A' ≤ c && c ≤ 'Z') || c = '_'

/-- Continuation class of the key regexes: `[a-zA-Z0-9_]`. -/
def isIdentChar (c : Char) : Bool :=
  isIdentStart c || c.isDigit

/-- Step 1 of `convertJsLiteralToJson`: `result.replace(/'/g, '"')`. -/
def replaceSingleQuotes (l : List Char) : List Char :=
  l.map (fun c => if c = '\x27' then '\x22' else c)

/-- Greedy `[a-zA-Z0-9_]*`: the identifier continuation and the rest. -/
def takeIdentChars : List Char → List Char × List Char
  | [] => ([], [])
  | c :: rest =>
      if isIdentChar c then
        let p := takeIdentChars rest
        (c :: p.1, p.2)
      else ([], c :: rest)

/-- Greedy `\s*`. -/
def dropWs (l : List Char) : List Char :=
  l.dropWhile jsTrimWs

lemma dropWs_length (l : List Char) : (dropWs l).length ≤ l.length := by
  induction l with
  | nil => simp [dropWs]
  | cons c rest ih =>
      by_cases h : jsTrimWs c = true
      · simp only [dropWs, List.dropWhile, h]
        exact Nat.le_succ_of_le ih
      · simp only [dropWs, List.dropWhile, h]
        simp

lemma takeIdentChars_length (l : List Char) : (takeIdentChars l).2.length ≤ l.length := by
  induction l with
  | nil => simp [takeIdentChars]
  | cons c rest ih =>
      by_cases h : isIdentChar c = true
      · simp only [takeIdentChars, h, if_pos]
        exact Nat.le_succ_of_le ih
      · simp [takeIdentChars, h]

/-- Try to match `\s*([a-zA-Z_][a-zA-Z0-9_]*)\s*:` at the current position
(the tail of both key regexes; backtracking never changes the outcome because
the character classes of `\s` and the identifier are disjoint and `:` belongs
to neither).  Returns the captured identifier and the input after the `:`. -/
def tryKeyMatch (l : List Char) : Option (List Char × List Char) :=
  match dropWs l with
  | [] => none
  | c :: r =>
      if isIdentStart c then
        match dropWs (takeIdentChars r).2 with
        | ':' :: rest => some (c :: (takeIdentChars r).1, rest)
        | _ => none
      else none

lemma tryKeyMatch_length {l ident rest : List Char}
    (h : tryKeyMatch l = some (ident, rest)) : rest.length < l.length := by
  unfold tryKeyMatch at h
  split at h
  · exact absurd h (by simp)
  · rename_i c r hd
    split at h
    · split at h
      · rename_i rest0 hd2
        simp only [Option.some.injEq, Prod.mk.injEq] at h
        obtain ⟨-, h2⟩ := h
        subst h2
        have e1 : r.length + 1 ≤ l.length := by
          have := dropWs_length l
          rw [hd] at this
          simpa using this
        have e2 := takeIdentChars_length r
        have e3 : rest0.length + 1 ≤ (takeIdentChars r).2.length := by
          have := dropWs_length (takeIdentChars r).2
          rw [hd2] at this
          simpa using this
        omega
      · exact absurd h (by simp)
    · exact absurd h (by simp)

/-- Step 2 of `convertJsLiteralToJson`, fueled (each iteration consumes at
least one input character, so `length + 1` units of fuel always suffice): the
global replacement `([{,\[])\s*([a-zA-Z_][a-zA-Z0-9_]*)\s*:` → `$1"$2":` —
after an opener the matched whitespace is dropped and the bare key is
double-quoted; scanning resumes after the `:` (JS global-replace semantics,
non-overlapping, left to right). -/
def quoteKeysAfterOpenersF : Nat → List Char → List Char
  | 0, l => l
  | _ + 1, [] => []
  | fuel + 1, c :: rest =>
      if c = '\x7b' ∨ c = ',' ∨ c = '[' then
        match tryKeyMatch rest with
        | some (ident, rest') =>
            c :: '\x22' :: (ident ++ '\x22' :: ':' :: quoteKeysAfterOpenersF fuel rest')
        | none => c :: quoteKeysAfterOpenersF fuel rest
      else c :: quoteKeysAfterOpenersF fuel rest

/-- Step 2 at its always-sufficient fuel. -/
def quoteKeysAfterOpeners (l : List Char) : List Char :=
  quoteKeysAfterOpenersF (l.length + 1) l

/-- Step 3 of `convertJsLiteralToJson`, fueled like step 2: the global
multiline replacement `^\s*([a-zA-Z_][a-zA-Z0-9_]*)\s*:` → `"$1":` — the
anchor matches at the start of the text and right after each newline (the flag
carries "previous character was a newline"); `\s` may itself consume newlines
inside a match. -/
def quoteKeysAtLineStartsF : Nat → Bool → List Char → List Char
  | 0, _, l => l
  | _ + 1, _, [] => []
  | fuel + 1, atStart, c :: rest =>
      if atStart then
        match tryKeyMatch (c :: rest) with
        | some (ident, rest') =>
            '\x22' :: (ident ++ '\x22' :: ':' :: quoteKeysAtLineStartsF fuel false rest')
        | none => c :: quoteKeysAtLineStartsF fuel (c = '\n') rest
      else c :: quoteKeysAtLineStartsF fuel (c = '\n') rest

/-- Step 3 at its always-sufficient fuel. -/
def quoteKeysAtLineStarts (atStart : Bool) (l : List Char) : List Char :=
  quoteKeysAtLineStartsF (l.length + 1) atStart l

/-- Step 4 of `convertJsLiteralToJson`: `result.replace(/""/g, '"')`. -/
def collapseDoubleQuotes : List Char → List Char
  | '\x22' :: '\x22' :: rest => '\x22' :: collapseDoubleQuotes rest
  | c :: rest => c :: collapseDoubleQuotes rest
  | [] => []

/-- `HttpClient.convertJsLiteralToJson` (lines 402-425): single quotes to
double quotes, bare-key quoting after `{`/`,`/`[`, bare-key quoting at line
starts, then collapsing of doubled quotes. -/
def convertJsLiteralToJson (s : String) : String :=
  String.mk (collapseDoubleQuotes
    (quoteKeysAtLineStarts true
      (quoteKeysAfterOpeners
        (replaceSingleQuotes s.data))))

/-- The observable failure of `parseJsLiteralResponse` when every decoding step
fails: the first 200 characters of the response are written to the error log,
and the thrown value is an `APIError` (code `API_ERROR`, category API, not
retryable).  The thrown error's message is
`"Failed to parse API response: " + String(conversionError)`, where the
engine-generated description of the step-2 JSON parse failure is not part of
this model. -/
structure DecodeFailure where
  loggedText : String
  code : String
  category : ErrorCategory
  retryable : Bool

/-- Result of `parseJsLiteralResponse`. -/
inductive DecodeOutcome
  | ok (value : Json)
  | err (failure : DecodeFailure)

/-- `HttpClient.parseJsLiteralResponse` (lines 364-396), that is the spec's
`decodeQuasiJson`.  The sandboxed expression-evaluation fallback
(`new Function("return (" + text + ");")`) runs arbitrary host-engine
evaluation and is therefore taken as an explicit parameter `evalJs`; the other
steps are fully modelled.  Empty or whitespace-only input short-circuits to an
empty object before any step runs. -/
def parseJsLiteralResponse (evalJs : String → Option Json) (responseText : String) :
    DecodeOutcome :=
  if responseText.data.all jsTrimWs then .ok (Json.obj [])
  else
    match jsonParse responseText with
    | some v => .ok v
    | none =>
        match jsonParse (convertJsLiteralToJson responseText) with
        | some v => .ok v
        | none =>
            match evalJs responseText with
            | some v => .ok v
            | none =>
                .err { loggedText := String.mk (responseText.data.take 200),
                       code := "API_ERROR", category := ErrorCategory.API,
                       retryable := false }

/-- JS truthiness fallback `a || d` for an optional string: `undefined` and
the empty string are falsy. -/
def jsOrDefault (a : Option String) (d : String) : String :=
  match a with
  | some s => if s = "" then d else s
  | none => d

/-- JS `a || b` where both sides are optional strings. -/
def jsOr (a b : Option String) : Option String :=
  match a with
  | some s => if s = "" then b else some s
  | none => b

/-- Digit run to a natural number. -/
def digitsToNat (ds : List Char) : Nat :=
  ds.foldl (fun a c => a * 10 + (c.toNat - 48)) 0

/-- JS `parseInt(s, 10)`: leading whitespace skipped, optional sign, then the
leading digit run; `none` models `NaN` (no digits at all). -/
def jsParseInt10 (s : String) : Option Int :=
  let l := s.data.dropWhile jsTrimWs
  let sl : Int × List Char :=
    match l with
    | '-' :: r => (-1, r)
    | '+' :: r => (1, r)
    | _ => (1, l)
  let ds := sl.2.takeWhile Char.isDigit
  if ds.isEmpty then none else some (sl.1 * (digitsToNat ds : Int))

/-- JS `parseFloat(s)` over exact rationals: leading whitespace skipped,
optional sign, digits with optional fraction and exponent, longest valid
prefix; `none` models `NaN`.  IEEE-754 rounding and the `Infinity` literal are
not modelled — no claim inspects a parsed monetary amount. -/
def jsParseFloat (s : String) : Option Rat :=
  let l := s.data.dropWhile jsTrimWs
  let sl : Rat × List Char :=
    match l with
    | '-' :: r => (-1, r)
    | '+' :: r => (1, r)
    | _ => (1, l)
  let ip := sl.2.takeWhile Char.isDigit
  let l2 := sl.2.dropWhile Char.isDigit
  let fpl : List Char × List Char :=
    match l2 with
    | '.' :: r => (r.takeWhile Char.isDigit, r.dropWhile Char.isDigit)
    | _ => ([], l2)
  if ip.isEmpty ∧ fpl.1.isEmpty then none
  else
    let mant : Rat :=
      (digitsToNat ip : Rat) + (digitsToNat fpl.1 : Rat) / ((10 : Rat) ^ fpl.1.length)
    let expo : Int :=
      match fpl.2 with
      | e :: r =>
          if e = 'e' ∨ e = 'E' then
            match r with
            | '-' :: r' =>
                let ds := r'.takeWhile Char.isDigit
                if ds.isEmpty then 0 else -(digitsToNat ds : Int)
            | '+' :: r' =>
                let ds := r'.takeWhile Char.isDigit
                if ds.isEmpty then 0 else (digitsToNat ds : Int)
            | _ =>
                let ds := r.takeWhile Char.isDigit
                if ds.isEmpty then 0 else (digitsToNat ds : Int)
          else 0
      | [] => 0
    some (sl.1 * mant * (10 : Rat) ^ expo)

/-- The `ApiOperationResponse` view of a decoded upstream response
(`src/tools/handlers.ts` lines 96-104): every field optional.  TypeScript
performs no runtime conversion, so a field whose runtime value has the wrong
type behaves like an absent one for the `!== false` / `!== "fail"` checks;
`toApiOperationResponse` below models exactly that. -/
structure ApiOperationResponse where
  success : Option Bool := none
  result : Option String := none
  message : Option String := none
  id : Option String := none
  assetId : Option String := none
  cardId : Option String := none
  transferId : Option String := none

/-- Last-wins field access on a decoded JSON object (`JSON.parse` keeps the
last duplicate key), `undefined` otherwise. -/
def jsonField (j : Json) (k : String) : Option Json :=
  match j with
  | .obj fields => (fields.reverse.find? (fun p => p.1 = k)).map (fun p => p.2)
  | _ => none

/-- A JSON value viewed as a boolean, when it is one. -/
def jsonAsBool : Option Json → Option Bool
  | some (.bool b) => some b
  | _ => none

/-- A JSON value viewed as a string, when it is one. -/
def jsonAsString : Option Json → Option String
  | some (.str s) => some s
  | _ => none

/-- The decoded response as the handlers see it through the
`ApiOperationResponse` interface. -/
def toApiOperationResponse (j : Json) : ApiOperationResponse :=
  { success := jsonAsBool (jsonField j "success"),
    result := jsonAsString (jsonField j "result"),
    message := jsonAsString (jsonField j "message"),
    id := jsonAsString (jsonField j "id"),
    assetId := jsonAsString (jsonField j "assetId"),
    cardId := jsonAsString (jsonField j "cardId"),
    transferId := jsonAsString (jsonField j "transferId") }

/-- The success test every mutating handler computes:
`response.success !== false && response.result !== "fail"`. -/
def opSuccess (r : ApiOperationResponse) : Bool :=
  !(r.success == some false) && !(r.result == some "fail")

/-- `TransactionOperationResponse` (src/types/index.ts). -/
structure TransactionOperationResponse where
  success : Bool
  transactionId : Option String := none
  deletedCount : Option Nat := none
  message : Option String := none

/-- `AssetOperationResponse`. -/
structure AssetOperationResponse where
  success : Bool
  assetId : Option String := none
  message : Option String := none

/-- `CardOperationResponse`. -/
structure CardOperationResponse where
  success : Bool
  cardId : Option String := none
  message : Option String := none

/-- `TransferOperationResponse`. -/
structure TransferOperationResponse where
  success : Bool
  transferId : Option String := none
  message : Option String := none

/-- `BackupRestoreResponse`. -/
structure BackupRestoreResponse where
  success : Bool
  message : String

/-- Result shaping of `handleTransactionCreate` (lines 250-254). -/
def handleTransactionCreateShape (response : ApiOperationResponse) :
    TransactionOperationResponse :=
  { success := opSuccess response, transactionId := response.id,
    message := response.message }

/-- Result shaping of `handleTransactionUpdate` (lines 283-287). -/
def handleTransactionUpdateShape (validatedId : String)
    (response : ApiOperationResponse) : TransactionOperationResponse :=
  { success := opSuccess response, transactionId := some validatedId,
    message := response.message }

/-- Result shaping of `handleTransactionDelete` (lines 307-311). -/
def handleTransactionDeleteShape (validatedIds : List String)
    (response : ApiOperationResponse) : TransactionOperationResponse :=
  { success := opSuccess response, deletedCount := some validatedIds.length,
    message := response.message }

/-- Result shaping of `handleAssetCreate` (lines 459-463). -/
def handleAssetCreateShape (response : ApiOperationResponse) : AssetOperationResponse :=
  { success := opSuccess response, assetId := response.assetId,
    message := response.message }

/-- Result shaping of `handleAssetUpdate` (lines 486-490). -/
def handleAssetUpdateShape (validatedAssetId : String)
    (response : ApiOperationResponse) : AssetOperationResponse :=
  { success := opSuccess response, assetId := some validatedAssetId,
    message := response.message }

/-- Result shaping of `handleAssetDelete` (lines 507-511). -/
def handleAssetDeleteShape (validatedAssetId : String)
    (response : ApiOperationResponse) : AssetOperationResponse :=
  { success := opSuccess response, assetId := some validatedAssetId,
    message := response.message }

/-- Result shaping of `handleCardCreate` (lines 571-575):
`cardId: response.cardId || response.assetId`. -/
def handleCardCreateShape (response : ApiOperationResponse) : CardOperationResponse :=
  { success := opSuccess response, cardId := jsOr response.cardId response.assetId,
    message := response.message }

/-- Result shaping of `handleCardUpdate` (lines 597-601). -/
def handleCardUpdateShape (validatedAssetId : String)
    (response : ApiOperationResponse) : CardOperationResponse :=
  { success := opSuccess response, cardId := some validatedAssetId,
    message := response.message }

/-- Result shaping of `handleTransferCreate` (lines 629-633):
`transferId: response.transferId || response.id`. -/
def handleTransferCreateShape (response : ApiOperationResponse) :
    TransferOperationResponse :=
  { success := opSuccess response, transferId := jsOr response.transferId response.id,
    message := response.message }

/-- The fallback warning text of `handleTransferUpdate`. -/
def transferUpdateWarning : String :=
  "WARNING: The server creates a new transfer with a NEW ID. " ++
    "The provided ID is now invalid. Use transaction_list to get the new ID."

/-- Result shaping of `handleTransferUpdate` (lines 665-671):
`message: response.message || "WARNING: ..."`. -/
def handleTransferUpdateShape (validatedId : String)
    (response : ApiOperationResponse) : TransferOperationResponse :=
  { success := opSuccess response, transferId := some validatedId,
    message := some (jsOrDefault response.message transferUpdateWarning) }

/-- Default success message of `handleBackupRestore`. -/
def backupRestoreDefaultMessage : String :=
  "Database restored successfully"

/-- Result shaping of `handleBackupRestore` on a decoded upstream response
(lines 773-776). -/
def handleBackupRestoreShape (response : ApiOperationResponse) : BackupRestoreResponse :=
  { success := opSuccess response,
    message := jsOrDefault response.message backupRestoreDefaultMessage }

/-- A transaction row as decoded from `/getDataByPeriod` XML
(`RawTransactionRow`, handlers.ts lines 75-91). -/
structure RawTransactionRow where
  id : String
  mbDate : String
  assetId : String
  toAssetId : Option String := none
  targetAssetId : Option String := none
  payType : String
  mcid : String
  mbCategory : String
  mcscid : Option String := none
  subCategory : Option String := none
  mbContent : Option String := none
  mbCash : String
  inOutCode : String
  inOutType : String
  mbDetailContent : Option String := none

/-- The `row` field of the decoded XML dataset: absent, one collapsed element,
or an array (xml2js with `explicitArray: false` collapses a single repeated
element). -/
inductive RowField
  | missing
  | single (r : RawTransactionRow)
  | multiple (rs : List RawTransactionRow)

/-- The `dataset` root of the decoded `/getDataByPeriod` response:
`absent` covers a falsy decoded response or a missing `dataset` key, `strVal`
the xml2js collapse of an attribute-only element to a bare string once
attributes are stripped, and `node` a structured dataset. -/
inductive DatasetField
  | absent
  | strVal (s : String)
  | node (results : Option String) (row : RowField)

/-- A normalized transaction record (`Transaction`, src/types/index.ts);
`mbCash` is `parseFloat(row.mbCash) || 0`. -/
structure Transaction where
  id : String
  mbDate : String
  assetId : String
  toAssetId : Option String
  targetAssetId : Option String
  payType : String
  mcid : String
  mbCategory : String
  mcscid : Option String
  subCategory : Option String
  mbContent : Option String
  mbCash : Rat
  inOutCode : String
  inOutType : String
  mbDetailContent : Option String

/-- `TransactionListResponse`: `count` is the `parseInt` of the dataset's
`results` field, with `none` modelling `NaN`. -/
structure TransactionListResponse where
  count : Option Int
  transactions : List Transaction

/-- The row-to-transaction mapping of `handleTransactionList` (lines 203-219). -/
def mapTransactionRow (row : RawTransactionRow) : Transaction :=
  { id := row.id, mbDate := row.mbDate, assetId := row.assetId,
    toAssetId := row.toAssetId, targetAssetId := row.targetAssetId,
    payType := row.payType, mcid := row.mcid, mbCategory := row.mbCategory,
    mcscid := row.mcscid, subCategory := row.subCategory,
    mbContent := row.mbContent, mbCash := (jsParseFloat row.mbCash).getD 0,
    inOutCode := row.inOutCode, inOutType := row.inOutType,
    mbDetailContent := row.mbDetailContent }

/-- Post-decode logic of `handleTransactionList` (lines 183-222): a falsy or
missing dataset and a dataset collapsed to a bare string both yield the
zero-count empty listing; a structured dataset is counted via
`parseInt(results || "0", 10)` and its rows normalized (a single collapsed
row is wrapped into a one-element array). -/
def handleTransactionListShape : DatasetField → TransactionListResponse
  | .absent => { count := some 0, transactions := [] }
  | .strVal _ => { count := some 0, transactions := [] }
  | .node results row =>
      { count := jsParseInt10 (jsOrDefault results "0"),
        transactions :=
          match row with
          | .missing => []
          | .single r => [mapTransactionRow r]
          | .multiple rs => rs.map mapTransactionRow }

/-- Observable outcome of `HttpClient.uploadFile`: the result (or thrown
value) and how many times the underlying HTTP request was issued. -/
structure UploadOutcome where
  outcome : Except Thrown Json
  requestsIssued : Nat

/-- `HttpClient.uploadFile` (lines 209-229): when the source file is absent it
throws the plain `new Error("File not found: " + filePath)` before any request
is sent; otherwise the multipart POST runs through `executeWithRetry`. -/
def uploadFile (cfg : ServerConfig) (fileExists : Bool) (filePath : String)
    (req : Nat → Except Thrown Json) : UploadOutcome :=
  if fileExists = false then
    { outcome := .error (.jsError none ("File not found: " ++ filePath)),
      requestsIssued := 0 }
  else
    let r := executeWithRetry cfg req
    { outcome :=
        match r.result with
        | .ok v => .ok v
        | .error e => .error (.mcp e),
      requestsIssued := r.attempts }

/-- `handleBackupRestore` (lines 760-783): uploads the backup file and shapes
the result; in the catch block an `Error` whose message contains
`"File not found"` becomes `FileError.notFound(filePath)`, anything else is
re-wrapped by `wrapError`. -/
def handleBackupRestoreModel (cfg : ServerConfig) (fileExists : Bool) (filePath : String)
    (req : Nat → Except Thrown Json) : Except McpError BackupRestoreResponse × Nat :=
  let u := uploadFile cfg fileExists filePath req
  match u.outcome with
  | .ok v => (.ok (handleBackupRestoreShape (toApiOperationResponse v)), u.requestsIssued)
  | .error e =>
      let err :=
        match thrownMessage e with
        | some msg =>
            if jsIncludes msg "File not found" then FileError.notFound filePath
            else wrapError e
        | none => wrapError e
      (.error err, u.requestsIssued)

/-! ### Helper lemmas -/

/-- The backoff sleeps performed by the retry loop when it starts at a given
zero-based attempt and goes on to perform `n` further attempts. -/
def backoffDelays (baseDelay attempt n : Nat) : List Nat :=
  match n with
  | 0 => []
  | m + 1 => baseDelay * 2 ^ attempt :: backoffDelays baseDelay (attempt + 1) m

lemma backoffDelays_eq_map (baseDelay : Nat) :
    ∀ n attempt, backoffDelays baseDelay attempt n =
      (List.range n).map (fun k => baseDelay * 2 ^ (attempt + k)) := by
  intro n
  induction n with
  | zero => intro attempt; rfl
  | succ m ih =>
      intro attempt
      rw [List.range_succ_eq_map, List.map_cons, List.map_map]
      show baseDelay * 2 ^ attempt :: backoffDelays baseDelay (attempt + 1) m = _
      rw [ih (attempt + 1)]
      refine congrArg₂ _ (by rw [Nat.add_zero]) ?_
      refine List.map_congr_left ?_
      intro k _
      show baseDelay * 2 ^ ((attempt + 1) + k) = baseDelay * 2 ^ (attempt + (k + 1))
      have he : (attempt + 1) + k = attempt + (k + 1) := by omega
      rw [he]

lemma executeWithRetryGo_ok_step {T : Type} {baseDelay : Nat} {req : Nat → Except Thrown T}
    {attempt : Nat} {v : T} (h : req attempt = .ok v) (remaining : Nat) :
    executeWithRetryGo baseDelay req attempt remaining =
      { result := .ok v, attempts := 1, delays := [] } := by
  unfold executeWithRetryGo
  rw [h]

lemma executeWithRetryGo_stop_step {T : Type} {baseDelay : Nat} {req : Nat → Except Thrown T}
    {attempt : Nat} {t : Thrown} (h : req attempt = .error t)
    (hr : (wrapError t).retryable = false) (remaining : Nat) :
    executeWithRetryGo baseDelay req attempt remaining =
      { result := .error (wrapError t), attempts := 1, delays := [] } := by
  cases remaining with
  | zero =>
      unfold executeWithRetryGo
      rw [h]
  | succ r =>
      conv_lhs => unfold executeWithRetryGo
      rw [h]
      exact if_pos hr

lemma executeWithRetryGo_exhaust_step {T : Type} {baseDelay : Nat}
    {req : Nat → Except Thrown T} {attempt : Nat} {t : Thrown}
    (h : req attempt = .error t) :
    executeWithRetryGo baseDelay req attempt 0 =
      { result := .error (wrapError t), attempts := 1, delays := [] } := by
  unfold executeWithRetryGo
  rw [h]

lemma executeWithRetryGo_retry_step {T : Type} {baseDelay : Nat}
    {req : Nat → Except Thrown T} {attempt r : Nat} {t : Thrown}
    (h : req attempt = .error t) (hr : ¬(wrapError t).retryable = false) :
    executeWithRetryGo baseDelay req attempt (r + 1) =
      { result := (executeWithRetryGo baseDelay req (attempt + 1) r).result,
        attempts := (executeWithRetryGo baseDelay req (attempt + 1) r).attempts + 1,
        delays := baseDelay * 2 ^ attempt ::
          (executeWithRetryGo baseDelay req (attempt + 1) r).delays } := by
  conv_lhs => unfold executeWithRetryGo
  rw [h]
  exact if_neg hr

lemma executeWithRetryGo_spec {T : Type} (baseDelay : Nat) (req : Nat → Except Thrown T) :
    ∀ remaining attempt,
      1 ≤ (executeWithRetryGo baseDelay req attempt remaining).attempts ∧
      (executeWithRetryGo baseDelay req attempt remaining).attempts ≤ remaining + 1 ∧
      (executeWithRetryGo baseDelay req attempt remaining).delays =
        backoffDelays baseDelay attempt
          ((executeWithRetryGo baseDelay req attempt remaining).attempts - 1) := by
  intro remaining
  induction remaining with
  | zero =>
      intro attempt
      cases h : req attempt with
      | ok v =>
          rw [executeWithRetryGo_ok_step h]
          exact ⟨le_refl 1, Nat.succ_le_succ (Nat.zero_le _), rfl⟩
      | error t =>
          rw [executeWithRetryGo_exhaust_step h]
          exact ⟨le_refl 1, Nat.succ_le_succ (Nat.zero_le _), rfl⟩
  | succ r ih =>
      intro attempt
      cases h : req attempt with
      | ok v =>
          rw [executeWithRetryGo_ok_step h]
          exact ⟨le_refl 1, Nat.succ_le_succ (Nat.zero_le _), rfl⟩
      | error t =>
          by_cases hr : (wrapError t).retryable = false
          · rw [executeWithRetryGo_stop_step h hr]
            exact ⟨le_refl 1, Nat.succ_le_succ (Nat.zero_le _), rfl⟩
          · obtain ⟨h1, h2, h3⟩ := ih (attempt + 1)
            rw [executeWithRetryGo_retry_step h hr]
            refine ⟨?_, ?_, ?_⟩
            · show 1 ≤ (executeWithRetryGo baseDelay req (attempt + 1) r).attempts + 1
              omega
            · show (executeWithRetryGo baseDelay req (attempt + 1) r).attempts + 1 ≤ (r + 1) + 1
              omega
            · show baseDelay * 2 ^ attempt ::
                  (executeWithRetryGo baseDelay req (attempt + 1) r).delays =
                backoffDelays baseDelay attempt
                  ((executeWithRetryGo baseDelay req (attempt + 1) r).attempts + 1 - 1)
              rw [h3]
              rw [show (executeWithRetryGo baseDelay req (attempt + 1) r).attempts + 1 - 1 =
                  ((executeWithRetryGo baseDelay req (attempt + 1) r).attempts - 1) + 1 by omega]
              rfl

lemma executeWithRetry_attempts_le {T : Type} (cfg : ServerConfig)
    (req : Nat → Except Thrown T) :
    (executeWithRetry cfg req).attempts ≤ cfg.retryCount + 1 :=
  (executeWithRetryGo_spec cfg.retryDelay req cfg.retryCount 0).2.1

lemma executeWithRetry_delays_eq {T : Type} (cfg : ServerConfig)
    (req : Nat → Except Thrown T) :
    (executeWithRetry cfg req).delays =
      (List.range ((executeWithRetry cfg req).attempts - 1)).map
        (fun k => cfg.retryDelay * 2 ^ k) := by
  have h := (executeWithRetryGo_spec cfg.retryDelay req cfg.retryCount 0).2.2
  rw [show executeWithRetry cfg req = executeWithRetryGo cfg.retryDelay req 0 cfg.retryCount
    from rfl]
  rw [h, backoffDelays_eq_map]
  refine List.map_congr_left ?_
  intro k _
  rw [Nat.zero_add]

lemma all_jsTrimWs_skipWs {l : List Char} (h : l.all jsTrimWs = true) :
    skipWs l = [] ∨ ∃ c r, skipWs l = c :: r ∧ jsTrimWs c = true ∧ jsonWs c = false := by
  induction l with
  | nil => exact Or.inl rfl
  | cons c t ih =>
      simp only [List.all_cons, Bool.and_eq_true] at h
      obtain ⟨hc, ht⟩ := h
      by_cases hw : jsonWs c = true
      · rw [show skipWs (c :: t) = skipWs t by simp [skipWs, hw]]
        exact ih ht
      · refine Or.inr ⟨c, t, by simp [skipWs, hw], hc, by simpa using hw⟩

lemma parseValue_blank {l : List Char} (h : l.all jsTrimWs = true) (fuel : Nat) :
    parseValue (fuel + 1) l = none := by
  rcases all_jsTrimWs_skipWs h with he | ⟨c, r, he, hc, hw⟩
  · unfold parseValue
    rw [he]
  · unfold parseValue
    rw [he]
    simp only [jsTrimWs, Bool.or_eq_true, decide_eq_true_eq] at hc
    have hw' : ¬(c = ' ' ∨ c = '\t' ∨ c = '\n' ∨ c = '\r') := by
      intro hor
      rcases hor with rfl | rfl | rfl | rfl <;> simp [jsonWs] at hw
    rcases hc with ((((((rfl | rfl) | rfl) | rfl) | rfl) | rfl) | rfl) | rfl
    · exact absurd (Or.inl rfl) hw'
    · exact absurd (Or.inr (Or.inl rfl)) hw'
    · exact absurd (Or.inr (Or.inr (Or.inl rfl))) hw'
    · exact absurd (Or.inr (Or.inr (Or.inr rfl))) hw'
    · simp [parseNumberLex, parseNumberBody]
    · simp [parseNumberLex, parseNumberBody]
    · simp [parseNumberLex, parseNumberBody]
    · simp [parseNumberLex, parseNumberBody]

lemma jsonParse_blank {s : String} (h : s.data.all jsTrimWs = true) : jsonParse s = none := by
  unfold jsonParse
  rw [show jsonFuel s.data = (2 * s.data.length + 7) + 1 from rfl,
    parseValue_blank h]

lemma isPrefixOfChars_append {a b : List Char} (h : isPrefixOfChars a b = true)
    (c : List Char) : isPrefixOfChars a (b ++ c) = true := by
  induction a generalizing b with
  | nil => rfl
  | cons x xs ih =>
      cases b with
      | nil => exact absurd h (by simp [isPrefixOfChars])
      | cons y ys =>
          simp only [isPrefixOfChars, Bool.and_eq_true, decide_eq_true_eq] at h
          obtain ⟨rfl, h2⟩ := h
          simpa [isPrefixOfChars] using ih h2

lemma hasSubstr_of_isPrefixOfChars {text pat : List Char}
    (h : isPrefixOfChars pat text = true) : hasSubstr text pat = true := by
  unfold hasSubstr
  rw [h]
  rfl

/-- A schema-valid sample configuration (the documented defaults). -/
def cfgExample : ServerConfig :=
  { baseUrl := "http://192.168.1.1:8888", timeout := 30000,
    retryCount := 3, retryDelay := 1000 }

/-! ### Claim theorems -/

/-- **C1**: for every request function that always fails with an HTTP 404
response, `executeWithRetry` propagates the classified error immediately after
the first attempt — one invocation, no backoff sleep — and the propagated
error is the `APIError` classification of the 404, with category API and
`retryable = false`. -/
theorem http404_fails_immediately (T : Type) (cfg : ServerConfig) (m : Nat → String) :
    (executeWithRetry cfg
      (viaInterceptor cfg
        (fun k => (Except.error (AxiosFailure.httpStatus 404 (m k)) :
          Except AxiosFailure T)))).attempts = 1 ∧
    (executeWithRetry cfg
      (viaInterceptor cfg
        (fun k => (Except.error (AxiosFailure.httpStatus 404 (m k)) :
          Except AxiosFailure T)))).delays = [] ∧
    (executeWithRetry cfg
      (viaInterceptor cfg
        (fun k => (Except.error (AxiosFailure.httpStatus 404 (m k)) :
          Except AxiosFailure T)))).result =
      Except.error (APIError.fromStatusCode 404 (some (m 0))) ∧
    (APIError.fromStatusCode 404 (some (m 0))).category = ErrorCategory.API ∧
    (APIError.fromStatusCode 404 (some (m 0))).retryable = false := by
  have hreq : viaInterceptor cfg
      (fun k => (Except.error (AxiosFailure.httpStatus 404 (m k)) : Except AxiosFailure T)) 0 =
      Except.error (Thrown.mcp (handleResponseError cfg (AxiosFailure.httpStatus 404 (m 0)))) :=
    rfl
  have hr : (wrapError (Thrown.mcp
      (handleResponseError cfg (AxiosFailure.httpStatus 404 (m 0))))).retryable = false := rfl
  have hstep := @executeWithRetryGo_stop_step T cfg.retryDelay _ 0 _ hreq hr cfg.retryCount
  refine ⟨?_, ?_, ?_, rfl, rfl⟩
  · show (executeWithRetryGo cfg.retryDelay _ 0 cfg.retryCount).attempts = 1
    rw [hstep]
  · show (executeWithRetryGo cfg.retryDelay _ 0 cfg.retryCount).delays = []
    rw [hstep]
  · show (executeWithRetryGo cfg.retryDelay _ 0 cfg.retryCount).result = _
    rw [hstep]
    rfl

/-- **C2**: under any schema-valid configuration, `executeWithRetry` performs
at most `retryCount + 1` attempts for every request function; its sleeps are
exactly `retryDelay * 2 ^ k` for the zero-based failed attempts
`k = 0, 1, ...`, hence strictly monotonically increasing; and in the particular
scenario of retryable connection-refused failures on the first two attempts
followed by success, with `maxRetries = 3`, the success result is returned and
the delay before the third attempt (zero-based attempt 2) is
`retryDelay * 2 ^ 1`, which lies in `[retryDelay * 2 ^ 1, retryDelay * 2 ^ 2)`. -/
theorem retry_backoff_spec (cfg : ServerConfig) (h : ValidServerConfig cfg) :
    (∀ (T : Type) (req : Nat → Except Thrown T),
      (executeWithRetry cfg req).attempts ≤ cfg.retryCount + 1 ∧
      (executeWithRetry cfg req).delays =
        (List.range ((executeWithRetry cfg req).attempts - 1)).map
          (fun k => cfg.retryDelay * 2 ^ k) ∧
      List.Pairwise (fun a b => a < b) (executeWithRetry cfg req).delays) ∧
    (∀ (T : Type) (v : T),
      (executeWithRetry { cfg with retryCount := 3 }
        (viaInterceptor { cfg with retryCount := 3 }
          (fun k => if k < 2 then
              Except.error (AxiosFailure.noResponse (some "ECONNREFUSED")
                "connect ECONNREFUSED" none)
            else Except.ok v))).result = Except.ok v ∧
      (executeWithRetry { cfg with retryCount := 3 }
        (viaInterceptor { cfg with retryCount := 3 }
          (fun k => if k < 2 then
              Except.error (AxiosFailure.noResponse (some "ECONNREFUSED")
                "connect ECONNREFUSED" none)
            else Except.ok v))).delays =
        [cfg.retryDelay * 2 ^ 0, cfg.retryDelay * 2 ^ 1] ∧
      cfg.retryDelay * 2 ^ 1 ≥ cfg.retryDelay * 2 ^ 1 ∧
      cfg.retryDelay * 2 ^ 1 < cfg.retryDelay * 2 ^ 2) := by
  obtain ⟨-, -, -, hd, -⟩ := h
  constructor
  · intro T req
    refine ⟨executeWithRetry_attempts_le cfg req, executeWithRetry_delays_eq cfg req, ?_⟩
    rw [executeWithRetry_delays_eq cfg req]
    refine (List.pairwise_lt_range _).map _ (fun a b hab => ?_)
    have h2 : (2 : Nat) ^ a < 2 ^ b := Nat.pow_lt_pow_right (by omega) hab
    exact mul_lt_mul_of_pos_left h2 (by omega)
  · intro T v
    have hreq0 : viaInterceptor { cfg with retryCount := 3 }
        (fun k => if k < 2 then
            Except.error (AxiosFailure.noResponse (some "ECONNREFUSED")
              "connect ECONNREFUSED" none)
          else Except.ok v) 0 =
        Except.error (Thrown.mcp (handleResponseError { cfg with retryCount := 3 }
          (AxiosFailure.noResponse (some "ECONNREFUSED") "connect ECONNREFUSED" none))) := rfl
    have hreq1 : viaInterceptor { cfg with retryCount := 3 }
        (fun k => if k < 2 then
            Except.error (AxiosFailure.noResponse (some "ECONNREFUSED")
              "connect ECONNREFUSED" none)
          else Except.ok v) 1 =
        Except.error (Thrown.mcp (handleResponseError { cfg with retryCount := 3 }
          (AxiosFailure.noResponse (some "ECONNREFUSED") "connect ECONNREFUSED" none))) := rfl
    have hreq2 : viaInterceptor { cfg with retryCount := 3 }
        (fun k => if k < 2 then
            Except.error (AxiosFailure.noResponse (some "ECONNREFUSED")
              "connect ECONNREFUSED" none)
          else Except.ok v) 2 = Except.ok v := rfl
    have hry : ¬(wrapError (Thrown.mcp (handleResponseError { cfg with retryCount := 3 }
        (AxiosFailure.noResponse (some "ECONNREFUSED")
          "connect ECONNREFUSED" none)))).retryable = false :=
      fun hh => Bool.noConfusion hh
    have step0 := @executeWithRetryGo_retry_step T cfg.retryDelay _ 0 2 _ hreq0 hry
    have step1 := @executeWithRetryGo_retry_step T cfg.retryDelay _ 1 1 _ hreq1 hry
    have step2 := @executeWithRetryGo_ok_step T cfg.retryDelay _ 2 _ hreq2 1
    refine ⟨?_, ?_, le_refl _, ?_⟩
    · show (executeWithRetryGo cfg.retryDelay _ 0 3).result = Except.ok v
      rw [step0, step1, step2]
    · show (executeWithRetryGo cfg.retryDelay _ 0 3).delays = _
      rw [step0, step1, step2]
    · show cfg.retryDelay * 2 < cfg.retryDelay * 4
      omega

/-- Witness for `retry_backoff_spec`: the documented default configuration is
schema-valid and the bound holds for a concrete request function. -/
theorem retry_backoff_spec_witness :
    ValidServerConfig cfgExample ∧
      (executeWithRetry cfgExample (fun _ => Except.ok (0 : Nat))).attempts ≤
        cfgExample.retryCount + 1 :=
  ⟨by decide, ((retry_backoff_spec cfgExample (by decide)).1 Nat (fun _ => Except.ok 0)).1⟩

/-- **C7**: empty or whitespace-only input makes `decodeQuasiJson` return the
empty object, never an error, whatever the evaluation fallback would do. -/
theorem decodeQuasiJson_blank (evalJs : String → Option Json) (s : String)
    (h : s.data.all jsTrimWs = true) :
    parseJsLiteralResponse evalJs s = DecodeOutcome.ok (Json.obj []) := by
  unfold parseJsLiteralResponse
  rw [h]
  rfl

/-- Witness for `decodeQuasiJson_blank` at the three-space input. -/
theorem decodeQuasiJson_blank_witness :
    "   ".data.all jsTrimWs = true ∧
      parseJsLiteralResponse (fun _ => none) "   " = DecodeOutcome.ok (Json.obj []) :=
  ⟨rfl, decodeQuasiJson_blank (fun _ => none) "   " rfl⟩

/-- **C8**: on any text accepted by strict JSON parsing, `decodeQuasiJson`
returns exactly the `JSON.parse` value — the fast path is lossless and the
fallback steps (conversion and sandboxed evaluation) are never consulted. -/
theorem decodeQuasiJson_json_fast_path (evalJs : String → Option Json) (s : String)
    (v : Json) (h : jsonParse s = some v) :
    parseJsLiteralResponse evalJs s = DecodeOutcome.ok v := by
  have hb : s.data.all jsTrimWs = false := by
    cases hall : s.data.all jsTrimWs with
    | false => rfl
    | true =>
        rw [jsonParse_blank hall] at h
        exact absurd h (by simp)
  unfold parseJsLiteralResponse
  rw [hb]
  rw [if_neg (by simp : ¬((false : Bool) = true))]
  rw [h]

/-- Witness for `decodeQuasiJson_json_fast_path` at a small valid JSON text. -/
theorem decodeQuasiJson_json_fast_path_witness :
    jsonParse "[null]" = some (Json.arr [Json.null]) ∧
      parseJsLiteralResponse (fun _ => none) "[null]" =
        DecodeOutcome.ok (Json.arr [Json.null]) :=
  ⟨rfl, decodeQuasiJson_json_fast_path (fun _ => none) "[null]" (Json.arr [Json.null]) rfl⟩

/-- **C9**: on the quasi-JSON input `{initData:{mbid:'x'},category_0:[]}` the
literal-to-JSON normalization followed by JSON parsing yields exactly
`{"initData":{"mbid":"x"},"category_0":[]}`, whatever the evaluation fallback
would do (it is never reached). -/
theorem decodeQuasiJson_normalizes_literal (evalJs : String → Option Json) :
    parseJsLiteralResponse evalJs "\x7binitData:\x7bmbid:\x27x\x27\x7d,category_0:[]\x7d" =
      DecodeOutcome.ok (Json.obj
        [("initData", Json.obj [("mbid", Json.str "x")]),
         ("category_0", Json.arr [])]) := rfl

/-- **C3 (counterexample)**: at the one-character input `[` every decoding
step fails, yet the failure's diagnostic text (the logged
`responseText.substring(0, 200)`) is the *entire* input body — the truncation
is a no-op for inputs of at most 200 characters — and the thrown `APIError`'s
own fields carry no prefix of the input at all (its message is built from the
step-2 conversion error).  This refutes "the decode error itself includes a
truncated prefix of the offending input text and never includes the full
body". -/
theorem decode_error_full_body_counterexample :
    parseJsLiteralResponse (fun _ => none) "[" =
      DecodeOutcome.err
        { loggedText := "[", code := "API_ERROR",
          category := ErrorCategory.API, retryable := false } ∧
    ("[" : String).length ≤ 200 :=
  ⟨rfl, by decide⟩

/-- **C3 (amended)**: when the input is not blank and all three decoding steps
fail, `decodeQuasiJson` fails with an `APIError` (category API, not retryable)
and logs as diagnostics exactly the first 200 characters of the offending
text — never more than 200 characters, though for short inputs this logged
prefix is the whole body; the thrown error's message is derived from the
conversion error, not from the input text. -/
theorem decode_error_diagnostic (evalJs : String → Option Json) (t : String)
    (hb : t.data.all jsTrimWs = false)
    (h1 : jsonParse t = none)
    (h2 : jsonParse (convertJsLiteralToJson t) = none)
    (h3 : evalJs t = none) :
    parseJsLiteralResponse evalJs t =
      DecodeOutcome.err
        { loggedText := String.mk (t.data.take 200), code := "API_ERROR",
          category := ErrorCategory.API, retryable := false } ∧
    (String.mk (t.data.take 200)).length ≤ 200 := by
  constructor
  · unfold parseJsLiteralResponse
    rw [hb]
    rw [if_neg (by simp : ¬((false : Bool) = true))]
    rw [h1, h2, h3]
  · show (t.data.take 200).length ≤ 200
    rw [List.length_take]
    omega

/-- Witness for `decode_error_diagnostic` at the input `[`. -/
theorem decode_error_diagnostic_witness :
    ("[".data.all jsTrimWs = false ∧ jsonParse "[" = none ∧
      jsonParse (convertJsLiteralToJson "[") = none) ∧
    parseJsLiteralResponse (fun _ => none) "[" =
      DecodeOutcome.err
        { loggedText := String.mk ("[".data.take 200), code := "API_ERROR",
          category := ErrorCategory.API, retryable := false } :=
  ⟨⟨rfl, rfl, rfl⟩, (decode_error_diagnostic (fun _ => none) "[" rfl rfl rfl rfl).1⟩

/-- **C4**: the transaction-list handler returns the same zero-count,
empty-list result when the decoded XML root collapsed to a bare string as when
it is absent; both are ordinary results (the shaping function is total), not
errors. -/
theorem transactionList_string_root_eq_absent (s : String) :
    handleTransactionListShape (DatasetField.strVal s) =
      handleTransactionListShape DatasetField.absent ∧
    handleTransactionListShape DatasetField.absent =
      { count := some 0, transactions := [] } :=
  ⟨rfl, rfl⟩

/-- **C5 (counterexample)**: a successful `/modifyMoveAsset` exchange whose
upstream response carries a non-empty `message` (here `"ok"`) yields
`success = true` but a result message that is the upstream text, which does not
contain the new-identifier warning — `response.message || "WARNING: ..."`
prefers the upstream message.  This refutes "the warning is never omitted on
success". -/
theorem transferUpdate_warning_counterexample :
    (handleTransferUpdateShape "t1" { message := some "ok" }).success = true ∧
    (handleTransferUpdateShape "t1" { message := some "ok" }).message = some "ok" ∧
    jsIncludes "ok" "WARNING" = false ∧
    "ok" ≠ transferUpdateWarning :=
  ⟨rfl, rfl, rfl, by decide⟩

/-- **C5 (amended)**: the transfer-update result carries the explicit
new-identifier warning exactly when the upstream response has no message or an
empty one; a non-empty upstream message replaces the warning. -/
theorem transferUpdate_warning_condition (validatedId : String)
    (resp : ApiOperationResponse) :
    ((resp.message = none ∨ resp.message = some "") →
      (handleTransferUpdateShape validatedId resp).message =
        some transferUpdateWarning) ∧
    (∀ msg, resp.message = some msg → msg ≠ "" →
      (handleTransferUpdateShape validatedId resp).message = some msg) := by
  constructor
  · rintro (hm | hm) <;> simp [handleTransferUpdateShape, jsOrDefault, hm]
  · intro msg hm hne
    simp [handleTransferUpdateShape, jsOrDefault, hm, hne]

/-- Witness for `transferUpdate_warning_condition`: an upstream response with
no message yields the warning. -/
theorem transferUpdate_warning_condition_witness :
    (handleTransferUpdateShape "t1" {}).message = some transferUpdateWarning :=
  (transferUpdate_warning_condition "t1" {}).1 (Or.inl rfl)

/-- **C6 (counterexample)**: when the source file is absent, `uploadFile`
itself issues no request but throws the plain
`new Error("File not found: " + filePath)` — not a classified error: the
generic classifier `wrapError` maps it to category INTERNAL, not FILE.  The
FILE classification only appears in the `backup_restore` handler's catch
block. -/
theorem uploadFile_absent_counterexample :
    (uploadFile cfgExample false "/tmp/backup.sqlite"
      (fun _ => Except.ok Json.null)).requestsIssued = 0 ∧
    (uploadFile cfgExample false "/tmp/backup.sqlite"
      (fun _ => Except.ok Json.null)).outcome =
      Except.error (Thrown.jsError none "File not found: /tmp/backup.sqlite") ∧
    (wrapError (Thrown.jsError none "File not found: /tmp/backup.sqlite")).category =
      ErrorCategory.INTERNAL ∧
    ErrorCategory.INTERNAL ≠ ErrorCategory.FILE :=
  ⟨rfl, rfl, rfl, by decide⟩

/-- **C6 (amended)**: for every call that reaches `uploadFile` through its one
caller `handleBackupRestore` with the source file absent, the operation fails
with the classified `FileError.notFound(filePath)` — category FILE, not
retryable, detail map `{operation: "access", filePath}` — and zero HTTP
requests are issued; the FILE classification is produced by the handler's
catch block from `uploadFile`'s plain "File not found" error. -/
theorem backupRestore_absent_file (cfg : ServerConfig) (filePath : String)
    (req : Nat → Except Thrown Json) :
    handleBackupRestoreModel cfg false filePath req =
      (Except.error (FileError.notFound filePath), 0) ∧
    (FileError.notFound filePath).category = ErrorCategory.FILE ∧
    (FileError.notFound filePath).retryable = false ∧
    (FileError.notFound filePath).details =
      [("operation", "access"), ("filePath", filePath)] := by
  have hinc : jsIncludes ("File not found: " ++ filePath) "File not found" = true := by
    unfold jsIncludes
    apply hasSubstr_of_isPrefixOfChars
    rw [String.data_append]
    exact isPrefixOfChars_append
      (by decide : isPrefixOfChars "File not found".data "File not found: ".data = true) _
  refine ⟨?_, rfl, rfl, rfl⟩
  show ((Except.error (if jsIncludes ("File not found: " ++ filePath) "File not found" = true
      then FileError.notFound filePath
      else wrapError (Thrown.jsError none ("File not found: " ++ filePath))), 0) :
        Except McpError BackupRestoreResponse × Nat) =
    (Except.error (FileError.notFound filePath), 0)
  rw [if_pos hinc]

/-- **C10**: every mutating handler reports `success = true` exactly when the
decoded upstream response neither has `success` equal to `false` nor `result`
equal to `"fail"`; an empty upstream body decodes to the empty object, whose
`ApiOperationResponse` view has every field absent, and is therefore reported
as success. -/
theorem mutating_success_iff (resp : ApiOperationResponse) (validatedId : String)
    (validatedIds : List String) (evalJs : String → Option Json) :
    ((handleTransactionCreateShape resp).success = true ↔
      ¬(resp.success = some false ∨ resp.result = some "fail")) ∧
    ((handleTransactionUpdateShape validatedId resp).success = true ↔
      ¬(resp.success = some false ∨ resp.result = some "fail")) ∧
    ((handleTransactionDeleteShape validatedIds resp).success = true ↔
      ¬(resp.success = some false ∨ resp.result = some "fail")) ∧
    ((handleAssetCreateShape resp).success = true ↔
      ¬(resp.success = some false ∨ resp.result = some "fail")) ∧
    ((handleAssetUpdateShape validatedId resp).success = true ↔
      ¬(resp.success = some false ∨ resp.result = some "fail")) ∧
    ((handleAssetDeleteShape validatedId resp).success = true ↔
      ¬(resp.success = some false ∨ resp.result = some "fail")) ∧
    ((handleCardCreateShape resp).success = true ↔
      ¬(resp.success = some false ∨ resp.result = some "fail")) ∧
    ((handleCardUpdateShape validatedId resp).success = true ↔
      ¬(resp.success = some false ∨ resp.result = some "fail")) ∧
    ((handleTransferCreateShape resp).success = true ↔
      ¬(resp.success = some false ∨ resp.result = some "fail")) ∧
    ((handleTransferUpdateShape validatedId resp).success = true ↔
      ¬(resp.success = some false ∨ resp.result = some "fail")) ∧
    ((handleBackupRestoreShape resp).success = true ↔
      ¬(resp.success = some false ∨ resp.result = some "fail")) ∧
    parseJsLiteralResponse evalJs "" = DecodeOutcome.ok (Json.obj []) ∧
    toApiOperationResponse (Json.obj []) = {} ∧
    (handleBackupRestoreShape (toApiOperationResponse (Json.obj []))).success = true := by
  have key : opSuccess resp = true ↔
      ¬(resp.success = some false ∨ resp.result = some "fail") := by
    simp [opSuccess, not_or]
  exact ⟨key, key, key, key, key, key, key, key, key, key, key, rfl, rfl, rfl⟩

end MoneyManagerMcp
